import Mathlib

/-!
Verification of the Hugging Face → TFDS conversion core
(`tensorflow_datasets/core/utils/huggingface_utils.py` and
`tensorflow_datasets/core/dataset_builders/huggingface_dataset_builder.py`).

The Python code is shallowly embedded: Python values are a closed inductive
type `PyVal`, fallible code returns `Except Err`, and the dynamic behaviours
the code relies on (truthiness, `dict.get`, iteration, `int()` truncation)
are embedded as explicit helper functions mirroring Python semantics.
-/

namespace HfTfds

/-- Numpy / TF scalar dtypes that occur in this pipeline.  `complex64` is a
valid numpy attribute that is neither string-, integer-, floating- nor
boolean-kind, so it exercises the unsupported-leaf branches. -/
inductive NpDtype where
  | bool_ | int8 | int16 | int32 | int64
  | uint8 | uint16 | uint32 | uint64
  | float16 | float32 | float64
  | object_ | complex64
  deriving DecidableEq, Repr

/-- Python exceptions raised by the embedded code. -/
inductive Err where
  | valueError (msg : String)
  | typeError (msg : String)
  | attributeError (msg : String)
  deriving DecidableEq, Repr

/-- Python runtime values flowing through `convert_hf_value`. -/
inductive PyVal where
  | none
  | bool (b : Bool)
  | int (i : ℤ)
  | float (q : ℚ)
  | str (s : String)
  | bytes (s : String)
  | datetime (ts : ℚ)
  | list (xs : List PyVal)
  | dict (items : List (String × PyVal))
  | image (mode : String)
  | path (p : String)

/-- Python `int(q)` on a real number: truncation toward zero. -/
def pyTrunc (q : ℚ) : ℤ := Int.tdiv q.num (q.den : ℤ)

/-- Python `int(q * r)`: truncation toward zero of the product, computed on
the unreduced fraction `(q.num * r) / q.den` so that it evaluates inside the
kernel; `pyTrunc_mul_int` below proves it equal to `pyTrunc (q * r)`. -/
def pyIntTimes (q : ℚ) (r : ℤ) : ℤ := Int.tdiv (q.num * r) (q.den : ℤ)

/-- Python `dict.get(k)` (returns `None`, i.e. `Option.none`, when absent). -/
def pyGet (m : List (String × PyVal)) (k : String) : Option PyVal := m.lookup k

/-- Python `dict.get(k)` seen as a `PyVal` (absent key gives the value `None`). -/
def pyGetD (m : List (String × PyVal)) (k : String) : PyVal :=
  (m.lookup k).getD PyVal.none

/-- Python truthiness of an embedded value. -/
def pyTruthy : PyVal → Bool
  | .none => false
  | .bool b => b
  | .int i => i != 0
  | .float q => q != 0
  | .str s => !s.isEmpty
  | .bytes s => !s.isEmpty
  | .datetime _ => true
  | .list xs => !xs.isEmpty
  | .dict m => !m.isEmpty
  | .image _ => true
  | .path _ => true

/-- Truthiness of the result of a `dict.get` (Python `None` is falsy). -/
def pyTruthyOpt : Option PyVal → Bool
  | Option.none => false
  | some v => pyTruthy v

/-- Python iteration `for x in v`: lists yield elements, strings yield
one-character strings, dicts yield their keys; other values raise
`TypeError`. -/
def pyIter : PyVal → Except Err (List PyVal)
  | .list xs => .ok xs
  | .str s => .ok (s.toList.map (fun c => .str c.toString))
  | .dict m => .ok (m.map (fun p => .str p.1))
  | _ => .error (.typeError "object is not iterable")

/-- Iterating the result of a `dict.get`: iterating Python `None` raises. -/
def pyIterOpt : Option PyVal → Except Err (List PyVal)
  | Option.none => .error (.typeError "NoneType object is not iterable")
  | some v => pyIter v

/-- Numeric view of a value, as used by Python multiplication
(`bool` counts as 0/1); non-numeric operands raise. -/
def pyToRat : PyVal → Option ℚ
  | .int i => some (i : ℚ)
  | .float q => some q
  | .bool b => some (if b then 1 else 0)
  | _ => Option.none

/-- Classification of the catch-all arm of the `Sequence` case of
`convert_hf_value`: a foreign value that is neither null, nor a datetime
(both handled before the feature dispatch), nor a map, nor an ordered
sequence, is treated as a bare scalar. -/
def isBareSeqScalar : PyVal → Bool
  | .none => false
  | .datetime _ => false
  | .dict _ => false
  | .list _ => false
  | _ => true

/-- One step of the audio-array comprehension
`int(sample * feature.sample_rate)`: multiply the (numeric) sample by the
sampling rate and truncate to an integer; non-numeric samples raise. -/
def audioSampleConv (rate : ℤ) (s : PyVal) : Except Err PyVal :=
  match pyToRat s with
  | some q => .ok (PyVal.int (pyIntTimes q rate))
  | Option.none => .error (Err.typeError "unsupported operand type")

/-- Error-propagating map over a list (the semantics of a Python list
comprehension whose body may raise). -/
def exceptMapList (f : α → Except Err β) : List α → Except Err (List β)
  | [] => .ok []
  | x :: xs =>
    match f x with
    | .error e => .error e
    | .ok y =>
      match exceptMapList f xs with
      | .error e => .error e
      | .ok ys => .ok (y :: ys)

/-- Python `s.startswith(p)`, as a character-level prefix test. -/
def strStartsWith (s p : String) : Bool := p.toList.isPrefixOf s.toList

/-- The fixed alias table `_HF_DTYPE_TO_NP_DTYPE` of `huggingface_utils.py`. -/
def _HF_DTYPE_TO_NP_DTYPE : List (String × NpDtype) :=
  [("bool", .bool_), ("float", .float32), ("double", .float64),
   ("large_string", .object_), ("utf8", .object_), ("string", .object_)]

/-- `convert_to_np_dtype` of `huggingface_utils.py`.  The attribute tables of
the external `np` and `tf.dtypes` namespaces are parameters (`hasattr` /
`getattr` pairs are embedded as `Option`-valued environments). -/
def convert_to_np_dtype (npEnv tfEnv : String → Option NpDtype)
    (hf_dtype : String) : Except Err NpDtype :=
  match _HF_DTYPE_TO_NP_DTYPE.lookup hf_dtype with
  | some d => .ok d
  | Option.none =>
    match npEnv hf_dtype with
    | some d => .ok d
    | Option.none =>
      if strStartsWith hf_dtype "timestamp" then .ok NpDtype.int64
      else
        match tfEnv hf_dtype with
        | some d => .ok d
        | Option.none =>
          .error (.valueError ("Unrecognized type " ++ hf_dtype ++
            ". Please open an issue if you think this is a bug."))

/-- How a TFDS `ClassLabel` was configured (`names` / `names_file` /
`num_classes`, the three keyword forms used by `extract_features`). -/
inductive ClassLabelSpec where
  | names (names : List String)
  | namesFile (file : String)
  | numClasses (n : Nat)
  deriving DecidableEq, Repr

mutual
/-- The TFDS feature connectors (`feature_lib`) reachable from
`extract_features`; record fields are the mutual type `Fields` so that all
recursions over the tree stay structural. -/
inductive FeatureConnector where
  | featuresDict (fields : Fields)
  | sequence (feature : FeatureConnector)
  | scalar (dtype : NpDtype)
  | classLabel (spec : ClassLabelSpec)
  | tensor (dtype : NpDtype)
  | translation (languages : List String)
  | translationVarLangs (languages : List String)
  | image (encodingFormat : String)
  | audio (sampleRate : Int)

/-- Ordered named fields of a `FeaturesDict`. -/
inductive Fields where
  | nil
  | cons (name : String) (feature : FeatureConnector) (rest : Fields)
end

/-- The field names of a record schema, in declaration order. -/
def fieldNames : Fields → List String
  | .nil => []
  | .cons n _ rest => n :: fieldNames rest

/-- The fields of a record schema as an ordered association list
(`feature.items()`). -/
def fieldsToList : Fields → List (String × FeatureConnector)
  | .nil => []
  | .cons n f rest => (n, f) :: fieldsToList rest

/-- First field of a record schema with the given name. -/
def fieldsLookup : Fields → String → Option FeatureConnector
  | .nil, _ => Option.none
  | .cons n f rest, name => if n = name then some f else fieldsLookup rest name

/-- Modelled from the spec: the string-kind predicate of
`dtype_utils.is_string` (the `dtype_utils` module is not under `src/`);
§4.2 calls the byte-string dtype the string kind. -/
def is_string : NpDtype → Bool
  | .object_ => true
  | _ => false

/-- Modelled from the spec: `dtype_utils.is_integer` (module not under
`src/`); the integer kind covers the signed and unsigned integer widths. -/
def is_integer : NpDtype → Bool
  | .int8 | .int16 | .int32 | .int64 => true
  | .uint8 | .uint16 | .uint32 | .uint64 => true
  | _ => false

/-- Modelled from the spec: `dtype_utils.is_floating` (module not under
`src/`). -/
def is_floating : NpDtype → Bool
  | .float16 | .float32 | .float64 => true
  | _ => false

/-- Modelled from the spec: `dtype_utils.is_bool` (module not under
`src/`). -/
def is_bool : NpDtype → Bool
  | .bool_ => true
  | _ => false

/-- `np.iinfo(dtype).min`: the minimal representable value of an integer
width (0 for the unsigned widths). -/
def iinfoMin : NpDtype → ℤ
  | .int8 => -(2 ^ 7)
  | .int16 => -(2 ^ 15)
  | .int32 => -(2 ^ 31)
  | .int64 => -(2 ^ 63)
  | _ => 0

/-- `np.finfo(dtype).min`: the minimal finite value of a floating width,
as an exact rational. -/
def finfoMin : NpDtype → ℚ
  | .float16 => -65504
  | .float32 => -(2 ^ 128 - 2 ^ 104)
  | .float64 => -(2 ^ 1024 - 2 ^ 971)
  | _ => 0

/-- Modelled from the spec: the `np_dtype` property of the leaf connectors
(the feature library is not under `src/`): `Scalar` and `Tensor` carry their
configured dtype, `ClassLabel` and `Audio` use a 64-bit integer dtype,
`Image` an 8-bit unsigned dtype; the translation features expose no scalar
dtype. -/
def npDtypeOf : FeatureConnector → Option NpDtype
  | .scalar d => some d
  | .tensor d => some d
  | .classLabel _ => some .int64
  | .audio _ => some .int64
  | .image _ => some .uint8
  | _ => Option.none

mutual
/-- `_get_default_value` of `huggingface_utils.py`. -/
def _get_default_value : FeatureConnector → Except Err PyVal
  | .featuresDict fields =>
    match _get_default_fields fields with
    | .error e => .error e
    | .ok l => .ok (.dict l)
  | .sequence _ => .ok (.list [])
  | f =>
    match npDtypeOf f with
    | some d =>
      if is_string d then .ok (.bytes "")
      else if is_integer d then .ok (.int (iinfoMin d))
      else if is_floating d then .ok (.float (finfoMin d))
      else if is_bool d then .ok (.bool false)
      else .error (.valueError "Could not get default value")
    | Option.none => .error (.valueError "Could not get default value")

/-- The dict comprehension in the `FeaturesDict` case of
`_get_default_value`. -/
def _get_default_fields : Fields → Except Err (List (String × PyVal))
  | .nil => .ok []
  | .cons n f rest =>
    match _get_default_value f with
    | .error e => .error e
    | .ok v =>
      match _get_default_fields rest with
      | .error e => .error e
      | .ok l => .ok ((n, v) :: l)
end

/-- One field of the record-default comprehension: the field's default
paired with its name. -/
def _get_default_pair (p : String × FeatureConnector) :
    Except Err (String × PyVal) :=
  match _get_default_value p.2 with
  | .error e => .error e
  | .ok v => .ok (p.1, v)

mutual
/-- `convert_hf_value` of `huggingface_utils.py`. `pe` embeds
`epath.Path(p).exists()`. -/
def convert_hf_value (pe : String → Bool) (hfValue : PyVal)
    (feature : FeatureConnector) : Except Err PyVal :=
  match hfValue with
  | .none => _get_default_value feature
  | .datetime ts => .ok (.int (pyTrunc ts))
  | hv =>
    match feature with
    | .classLabel _ => .ok hv
    | .scalar _ => .ok hv
    | .featuresDict fields =>
      match hv with
      | .dict m =>
        match convertRecordFields pe m fields with
        | .error e => .error e
        | .ok l => .ok (.dict l)
      | _ => .error (.attributeError "object has no attribute get")
    | .sequence inner =>
      match hv with
      | .dict m =>
        match inner with
        | .featuresDict fields =>
          match convertColumns pe m fields with
          | .error e => .error e
          | .ok l => .ok (.dict l)
        | _ => .error (.attributeError "object has no attribute items")
      | .list xs =>
        match exceptMapList (fun x => convert_hf_value pe x inner) xs with
        | .error e => .error e
        | .ok ys => .ok (.list ys)
      | v => .ok (.list [v])
    | .audio rate =>
      match hv with
      | .dict m =>
        if pyTruthyOpt (pyGet m "array") then
          match pyIterOpt (pyGet m "array") with
          | .error e => .error e
          | .ok samples =>
            match exceptMapList (audioSampleConv rate) samples with
            | .error e => .error e
            | .ok ys => .ok (.list ys)
        else if pyTruthyOpt (pyGet m "path") then
          match pyGet m "path" with
          | some (.str p) =>
            if pe p then .ok (.path p)
            else .error (.valueError "Conversion of value to feature is not supported.")
          | _ => .error (.typeError "invalid path type")
        else .error (.valueError "Conversion of value to feature is not supported.")
      | _ => .error (.attributeError "object has no attribute get")
    | .image _ =>
      match hv with
      | .image _ => .ok (.image "RGB")
      | _ => .error (.attributeError "object has no attribute convert")
    | .tensor _ => .ok hv
    | .translation _ =>
      .error (.valueError "Conversion of value to feature is not supported.")
    | .translationVarLangs _ =>
      .error (.valueError "Conversion of value to feature is not supported.")

/-- The dict comprehension in the `FeaturesDict` case of `convert_hf_value`:
each schema field is looked up in the foreign map (absent keys give `None`)
and converted recursively. -/
def convertRecordFields (pe : String → Bool) (m : List (String × PyVal)) :
    Fields → Except Err (List (String × PyVal))
  | .nil => .ok []
  | .cons n sf rest =>
    match convert_hf_value pe (pyGetD m n) sf with
    | .error e => .error e
    | .ok v =>
      match convertRecordFields pe m rest with
      | .error e => .error e
      | .ok l => .ok ((n, v) :: l)

/-- The columnar dict comprehension in the `Sequence` case of
`convert_hf_value`: each inner-schema field must be present and iterable in
the foreign map; its elements are converted recursively. -/
def convertColumns (pe : String → Bool) (m : List (String × PyVal)) :
    Fields → Except Err (List (String × PyVal))
  | .nil => .ok []
  | .cons n sf rest =>
    match pyIterOpt (pyGet m n) with
    | .error e => .error e
    | .ok elems =>
      match exceptMapList (fun x => convert_hf_value pe x sf) elems with
      | .error e => .error e
      | .ok vs =>
        match convertColumns pe m rest with
        | .error e => .error e
        | .ok l => .ok ((n, PyVal.list vs) :: l)
end

mutual
/-- The Hugging Face feature-spec tree, as dispatched on by
`extract_features` of `huggingface_dataset_builder.py`: `datasets.Features` /
plain dicts, `datasets.Sequence`, the single-element-list encoding,
`datasets.Value`, `datasets.ClassLabel`, the two translation kinds, images
and audio. -/
inductive HfFeature where
  | features (fields : HfFields)
  | sequence (feature : HfFeature)
  | listEnc (elems : HfFeatureList)
  | value (dtype : String)
  | classLabel (names : List String) (namesFile : Option String)
      (numClasses : Option Nat)
  | translation (languages : List String)
  | translationVariableLanguages (languages : List String)
  | image
  | audio (samplingRate : Int)

/-- Ordered named children of a Hugging Face record node. -/
inductive HfFields where
  | nil
  | cons (name : String) (feature : HfFeature) (rest : HfFields)

/-- The elements of a Python-list-encoded sequence feature. -/
inductive HfFeatureList where
  | nil
  | cons (feature : HfFeature) (rest : HfFeatureList)
end

/-- Length of a list-encoded sequence feature (`len(hf_features)`). -/
def hfListLength : HfFeatureList → Nat
  | .nil => 0
  | .cons _ rest => hfListLength rest + 1

/-- Python truthiness of `Optional[str]` (`None` and `""` are falsy). -/
def truthyOptStr : Option String → Bool
  | Option.none => false
  | some s => !s.isEmpty

/-- Python truthiness of `Optional[int]` (`None` and `0` are falsy). -/
def truthyOptNat : Option Nat → Bool
  | Option.none => false
  | some n => n != 0

mutual
/-- `extract_features` of `huggingface_dataset_builder.py`.  A `ClassLabel`
whose three configuration attributes are all falsy falls through every
`isinstance` check and reaches the final unsupported-type error, exactly as
in the Python control flow. -/
def extract_features (npEnv tfEnv : String → Option NpDtype) :
    HfFeature → Except Err FeatureConnector
  | .features fields =>
    match extract_features_fields npEnv tfEnv fields with
    | .error e => .error e
    | .ok fs => .ok (.featuresDict fs)
  | .sequence f =>
    match extract_features npEnv tfEnv f with
    | .error e => .error e
    | .ok f' => .ok (.sequence f')
  | .listEnc .nil => .error (.valueError "List should have a length of 1.")
  | .listEnc (.cons x .nil) =>
    match extract_features npEnv tfEnv x with
    | .error e => .error e
    | .ok f' => .ok (.sequence f')
  | .listEnc (.cons _ (.cons _ _)) =>
    .error (.valueError "List should have a length of 1.")
  | .value dtype =>
    match convert_to_np_dtype npEnv tfEnv dtype with
    | .error e => .error e
    | .ok d => .ok (.scalar d)
  | .classLabel names namesFile numClasses =>
    if !names.isEmpty then .ok (.classLabel (.names names))
    else if truthyOptStr namesFile then
      .ok (.classLabel (.namesFile (namesFile.getD "")))
    else if truthyOptNat numClasses then
      .ok (.classLabel (.numClasses (numClasses.getD 0)))
    else .error (.valueError "Type is not supported.")
  | .translation languages => .ok (.translation languages)
  | .translationVariableLanguages languages => .ok (.translationVarLangs languages)
  | .image => .ok (.image "png")
  | .audio samplingRate => .ok (.audio samplingRate)

/-- The dict comprehension in the record case of `extract_features`. -/
def extract_features_fields (npEnv tfEnv : String → Option NpDtype) :
    HfFields → Except Err Fields
  | .nil => .ok .nil
  | .cons n f rest =>
    match extract_features npEnv tfEnv f with
    | .error e => .error e
    | .ok f' =>
      match extract_features_fields npEnv tfEnv rest with
      | .error e => .error e
      | .ok rest' => .ok (.cons n f' rest')
end

mutual
/-- Structural correspondence between a Hugging Face feature tree and a TFDS
feature tree: record nodes carry the same field names in the same order
(children corresponding recursively), sequence wrappers and single-element
list encodings correspond to sequence nodes, and leaves correspond to leaves
of the translated kind. -/
def sameShape : HfFeature → FeatureConnector → Bool
  | .features hfs, f =>
    match f with
    | .featuresDict fs => sameShapeFields hfs fs
    | _ => false
  | .sequence hf, f =>
    match f with
    | .sequence f' => sameShape hf f'
    | _ => false
  | .listEnc .nil, _ => false
  | .listEnc (.cons x .nil), f =>
    match f with
    | .sequence f' => sameShape x f'
    | _ => false
  | .listEnc (.cons _ (.cons _ _)), _ => false
  | .value _, f =>
    match f with
    | .scalar _ => true
    | _ => false
  | .classLabel _ _ _, f =>
    match f with
    | .classLabel _ => true
    | _ => false
  | .translation _, f =>
    match f with
    | .translation _ => true
    | _ => false
  | .translationVariableLanguages _, f =>
    match f with
    | .translationVarLangs _ => true
    | _ => false
  | .image, f =>
    match f with
    | .image _ => true
    | _ => false
  | .audio _, f =>
    match f with
    | .audio _ => true
    | _ => false

/-- Fieldwise structural correspondence at a record node: equal names, in
order. -/
def sameShapeFields : HfFields → Fields → Bool
  | .nil, fs =>
    match fs with
    | .nil => true
    | _ => false
  | .cons n hf hrest, fs =>
    match fs with
    | .cons n' f frest =>
      n = n' && sameShape hf f && sameShapeFields hrest frest
    | _ => false
end

/-- `_remove_empty_splits` of `huggingface_dataset_builder.py`.  A split's
single-pass stream is embedded as the list of records it would yield; the
one-record peek draws `first` and splices it back (`itertools.chain`), so a
kept split's stream is `first :: remaining`.  Returns the kept splits plus
the names warned about, in traversal order. -/
def _remove_empty_splits {α : Type} :
    List (String × List α) → List (String × List α) × List String
  | [] => ([], [])
  | (split, examples) :: rest =>
    let r := _remove_empty_splits rest
    match examples with
    | [] => (r.1, split :: r.2)
    | first :: remaining => ((split, first :: remaining) :: r.1, r.2)

/-- Modelled from the spec: `multiprocessing.Pool.imap` (§4.5, §5) as an
ordered parallel map — each record is tagged with its position, the workers
may finish in an arbitrary order (`order` lists the positions in completion
order), and results are merged back in position order. -/
def poolImap {α β : Type} (f : α → β) (xs : List α) (order : List Nat) :
    List β :=
  let results := order.filterMap (fun i => (xs.get? i).map (fun x => (i, f x)))
  (List.range xs.length).filterMap (fun i => results.lookup i)

/-- `_generate_examples` of `huggingface_dataset_builder.py`: the sequential
path enumerates the converted stream directly; the parallel path converts
through the worker pool (whose completion order is `order`) and enumerates
the merged results. -/
def _generate_examples (pe : String → Bool) (features : FeatureConnector)
    (tfds_num_proc : Option Nat) (order : List Nat) (data : List PyVal) :
    List (Nat × Except Err PyVal) :=
  let convert_example := fun hv => convert_hf_value pe hv features
  match tfds_num_proc with
  | Option.none => (data.map convert_example).enum
  | some _ => (poolImap convert_example data order).enum

/-- A concrete path-existence environment for witnesses: no path exists. -/
def peNone : String → Bool := fun _ => false

/-- A concrete path-existence environment for witnesses: every path exists. -/
def peAll : String → Bool := fun _ => true

/-- A concrete numpy attribute environment for witnesses. -/
def npEnvW : String → Option NpDtype :=
  fun s => if s = "int32" then some .int32 else Option.none

/-- A concrete tf.dtypes attribute environment for witnesses. -/
def tfEnvW : String → Option NpDtype :=
  fun s => if s = "bfloat16" then some .float16 else Option.none

/-! ### Arithmetic bridge: the unreduced truncation equals `int(q * r)` -/

theorem tdiv_mul_cancel_right (a b k : ℤ) (hb : 0 < b) (hk : 0 < k) :
    Int.tdiv (a * k) (b * k) = Int.tdiv a b := by
  rcases Int.le_or_lt 0 a with ha | ha
  · rw [Int.tdiv_eq_ediv (by positivity) (by positivity),
      Int.tdiv_eq_ediv ha hb.le, Int.mul_comm a k, Int.mul_comm b k,
      Int.mul_ediv_mul_of_pos _ _ hk]
  · have ha' : 0 ≤ -a := by omega
    have hrw : a = -(-a) := by ring
    rw [hrw, Int.neg_mul, Int.neg_tdiv, Int.neg_tdiv]
    congr 1
    rw [Int.tdiv_eq_ediv (by positivity) (by positivity),
      Int.tdiv_eq_ediv ha' hb.le, Int.mul_comm (-a) k, Int.mul_comm b k,
      Int.mul_ediv_mul_of_pos _ _ hk]

theorem pyTrunc_divInt (a b : ℤ) (hb : 0 < b) :
    pyTrunc (Rat.divInt a b) = Int.tdiv a b := by
  set x := Rat.divInt a b with hx
  have hden : (0 : ℤ) < (x.den : ℤ) := by exact_mod_cast x.pos
  have hb' : b ≠ 0 := hb.ne'
  have hcross : x.num * b = a * (x.den : ℤ) := by
    have h1 : Rat.divInt x.num (x.den : ℤ) = Rat.divInt a b := by
      rw [Rat.num_divInt_den, hx]
    exact (Rat.divInt_eq_iff hden.ne' hb').1 h1
  have hdvdN : x.den ∣ b.natAbs := by
    have h2 : (x.den : ℤ) ∣ x.num * b := Dvd.intro_left a hcross.symm
    have h3 : x.den ∣ x.num.natAbs * b.natAbs := by
      have := Int.natAbs_dvd_natAbs.2 h2
      simpa [Int.natAbs_mul] using this
    exact (Nat.Coprime.symm x.reduced).dvd_of_dvd_mul_left h3
  have hdvd : (x.den : ℤ) ∣ b := by
    have h4 : ((x.den : ℤ)).natAbs ∣ b.natAbs := by simpa using hdvdN
    exact Int.natAbs_dvd_natAbs.1 h4
  obtain ⟨k, hkb⟩ := hdvd
  have hkpos : 0 < k := by
    rcases Int.le_or_lt k 0 with h | h
    · exfalso; nlinarith
    · exact h
  have hak : a = x.num * k := by
    have h5 : x.num * ((x.den : ℤ) * k) = a * (x.den : ℤ) := by
      rw [← hkb]; exact hcross
    have h6 : (x.num * k) * (x.den : ℤ) = a * (x.den : ℤ) := by
      ring_nf; ring_nf at h5; linarith
    exact (mul_right_cancel₀ hden.ne' h6).symm
  rw [hak, hkb, pyTrunc, tdiv_mul_cancel_right _ _ _ hden hkpos]

theorem pyIntTimes_eq (q : ℚ) (r : ℤ) :
    pyIntTimes q r = pyTrunc (q * (r : ℚ)) := by
  have h : q * (r : ℚ) = Rat.divInt (q.num * r) ((q.den : ℤ) * 1) := by
    conv_lhs => rw [← Rat.num_divInt_den q, Rat.intCast_eq_divInt r]
    rw [Rat.divInt_mul_divInt']
  rw [h, mul_one, pyTrunc_divInt _ _ (by exact_mod_cast q.pos), pyIntTimes]

/-! ### C6: dtype resolution precedence -/

/-- C6: dtype resolution follows the precedence alias table → numpy
attribute → timestamp prefix → tf.dtypes attribute → error naming the
unrecognized type; in particular `float` resolves to the 32-bit float type
via the alias table, `double` to the 64-bit float type and the string family
to the byte-string type, whatever the attribute environments contain. -/
theorem convert_to_np_dtype_precedence
    (npEnv tfEnv : String → Option NpDtype) (name : String) :
    (∀ d, _HF_DTYPE_TO_NP_DTYPE.lookup name = some d →
      convert_to_np_dtype npEnv tfEnv name = .ok d) ∧
    (_HF_DTYPE_TO_NP_DTYPE.lookup name = Option.none → ∀ d, npEnv name = some d →
      convert_to_np_dtype npEnv tfEnv name = .ok d) ∧
    (_HF_DTYPE_TO_NP_DTYPE.lookup name = Option.none → npEnv name = Option.none →
      strStartsWith name "timestamp" = true →
      convert_to_np_dtype npEnv tfEnv name = .ok .int64) ∧
    (_HF_DTYPE_TO_NP_DTYPE.lookup name = Option.none → npEnv name = Option.none →
      strStartsWith name "timestamp" = false → ∀ d, tfEnv name = some d →
      convert_to_np_dtype npEnv tfEnv name = .ok d) ∧
    (_HF_DTYPE_TO_NP_DTYPE.lookup name = Option.none → npEnv name = Option.none →
      strStartsWith name "timestamp" = false → tfEnv name = Option.none →
      convert_to_np_dtype npEnv tfEnv name =
        .error (.valueError ("Unrecognized type " ++ name ++
          ". Please open an issue if you think this is a bug."))) ∧
    convert_to_np_dtype npEnv tfEnv "float" = .ok .float32 ∧
    convert_to_np_dtype npEnv tfEnv "double" = .ok .float64 ∧
    convert_to_np_dtype npEnv tfEnv "large_string" = .ok .object_ ∧
    convert_to_np_dtype npEnv tfEnv "utf8" = .ok .object_ ∧
    convert_to_np_dtype npEnv tfEnv "string" = .ok .object_ := by
  refine ⟨?_, ?_, ?_, ?_, ?_, rfl, rfl, rfl, rfl, rfl⟩
  · intro d h; simp [convert_to_np_dtype, h]
  · intro h1 d h2; simp [convert_to_np_dtype, h1, h2]
  · intro h1 h2 h3; simp [convert_to_np_dtype, h1, h2, h3]
  · intro h1 h2 h3 d h4; simp [convert_to_np_dtype, h1, h2, h3, h4]
  · intro h1 h2 h3 h4; simp [convert_to_np_dtype, h1, h2, h3, h4]

/-- Witness for C6 at concrete attribute environments and names. -/
theorem convert_to_np_dtype_precedence_witness :
    convert_to_np_dtype npEnvW tfEnvW "int32" = .ok .int32 ∧
    convert_to_np_dtype npEnvW tfEnvW "timestamp[s]" = .ok .int64 ∧
    convert_to_np_dtype npEnvW tfEnvW "bfloat16" = .ok .float16 ∧
    convert_to_np_dtype npEnvW tfEnvW "arrow" =
      .error (.valueError
        "Unrecognized type arrow. Please open an issue if you think this is a bug.") ∧
    convert_to_np_dtype npEnvW tfEnvW "float" = .ok .float32 :=
  ⟨(convert_to_np_dtype_precedence npEnvW tfEnvW "int32").2.1 rfl .int32 rfl,
   (convert_to_np_dtype_precedence npEnvW tfEnvW "timestamp[s]").2.2.1 rfl rfl rfl,
   (convert_to_np_dtype_precedence npEnvW tfEnvW "bfloat16").2.2.2.1 rfl rfl rfl
     .float16 rfl,
   (convert_to_np_dtype_precedence npEnvW tfEnvW "arrow").2.2.2.2.1 rfl rfl rfl rfl,
   (convert_to_np_dtype_precedence npEnvW tfEnvW "float").2.2.2.2.2.1⟩

/-! ### C7: the default value synthesizer -/

theorem _get_default_fields_eq : ∀ fields : Fields,
    _get_default_fields fields =
      exceptMapList _get_default_pair (fieldsToList fields)
  | .nil => rfl
  | .cons n f rest => by
    rw [_get_default_fields, fieldsToList, exceptMapList,
      _get_default_fields_eq rest]
    cases h : _get_default_value f <;>
      cases h2 : exceptMapList _get_default_pair (fieldsToList rest) <;>
        simp [h, h2, _get_default_pair]

theorem _get_default_fields_keys : ∀ (fields : Fields) (l : List (String × PyVal)),
    _get_default_fields fields = .ok l → l.map Prod.fst = fieldNames fields
  | .nil, l, h => by
    rw [_get_default_fields] at h
    cases h; rfl
  | .cons n f rest, l, h => by
    rw [_get_default_fields] at h
    cases h1 : _get_default_value f <;> rw [h1] at h
    · cases h
    · cases h2 : _get_default_fields rest <;> rw [h2] at h
      · cases h
      · cases h
        simpa [fieldNames] using _get_default_fields_keys rest _ h2

/-- C7: the default value synthesizer is a total function of the schema
node: a record yields the ordered map of its fields' defaults, a sequence
the empty sequence, a string-kind leaf the empty byte string, an
integer-kind leaf the minimal representable value of its width, a
floating-kind leaf the minimal finite value of its width, a boolean-kind
leaf `false`, and an unsupported leaf kind a synthesis error. -/
theorem get_default_value_cases :
    (∀ fields : Fields,
      _get_default_value (.featuresDict fields) =
        match exceptMapList _get_default_pair (fieldsToList fields) with
        | .error e => .error e
        | .ok l => .ok (.dict l)) ∧
    (∀ fields l, _get_default_fields fields = .ok l →
      l.map Prod.fst = fieldNames fields) ∧
    (∀ inner, _get_default_value (.sequence inner) = .ok (.list [])) ∧
    (∀ d, is_string d = true →
      _get_default_value (.scalar d) = .ok (.bytes "")) ∧
    (∀ d, is_integer d = true →
      _get_default_value (.scalar d) = .ok (.int (iinfoMin d))) ∧
    (∀ d, is_floating d = true →
      _get_default_value (.scalar d) = .ok (.float (finfoMin d))) ∧
    _get_default_value (.scalar .bool_) = .ok (.bool false) ∧
    _get_default_value (.scalar .int32) = .ok (.int (-2147483648)) ∧
    _get_default_value (.scalar .float32) =
      .ok (.float (-340282346638528859811704183484516925440)) ∧
    _get_default_value (.scalar .complex64) =
      .error (.valueError "Could not get default value") := by
  refine ⟨?_, _get_default_fields_keys, fun _ => rfl, ?_, ?_, ?_, rfl, rfl, ?_, rfl⟩
  · intro fields
    rw [_get_default_value, _get_default_fields_eq]
  · intro d h; cases d <;> (simp_all [is_string]; try rfl)
  · intro d h; cases d <;> (simp_all [is_integer]; try rfl)
  · intro d h; cases d <;> (simp_all [is_floating]; try rfl)
  · show Except.ok (PyVal.float (finfoMin .float32)) = _
    norm_num [finfoMin]

/-- Witness for C7 at concrete leaves and a concrete record. -/
theorem get_default_value_cases_witness :
    _get_default_value (.scalar .object_) = .ok (.bytes "") ∧
    _get_default_value (.scalar .int8) = .ok (.int (iinfoMin .int8)) ∧
    _get_default_value (.scalar .float64) = .ok (.float (finfoMin .float64)) ∧
    _get_default_fields (.cons "a" (.scalar .bool_) .nil) =
      .ok [("a", .bool false)] ∧
    [("a", PyVal.bool false)].map Prod.fst =
      fieldNames (.cons "a" (.scalar .bool_) .nil) :=
  ⟨get_default_value_cases.2.2.2.1 .object_ rfl,
   get_default_value_cases.2.2.2.2.1 .int8 rfl,
   get_default_value_cases.2.2.2.2.2.1 .float64 rfl,
   rfl,
   get_default_value_cases.2.1 _ _ rfl⟩

/-! ### C1: null values and absent record fields yield defaults -/

theorem convert_none_default (pe : String → Bool) (s : FeatureConnector) :
    convert_hf_value pe PyVal.none s = _get_default_value s := by
  simp [convert_hf_value]

theorem convertRecordFields_absent (pe : String → Bool)
    (m : List (String × PyVal)) (name : String) :
    ∀ (fields : Fields) (sf : FeatureConnector) (l : List (String × PyVal)),
      fieldsLookup fields name = some sf → pyGet m name = Option.none →
      convertRecordFields pe m fields = .ok l →
      ∃ v, l.lookup name = some v ∧ _get_default_value sf = .ok v
  | .nil, sf, l, hlk, _, _ => by simp [fieldsLookup] at hlk
  | .cons n f rest, sf, l, hlk, hget, hconv => by
    rw [convertRecordFields] at hconv
    rw [fieldsLookup] at hlk
    split at hlk
    · rename_i hn
      cases hlk
      subst hn
      have hgd : pyGetD m n = PyVal.none := by
        rw [pyGetD]
        rw [pyGet] at hget
        rw [hget]
        rfl
      rw [hgd, convert_none_default] at hconv
      cases h1 : _get_default_value f <;> rw [h1] at hconv
      · cases hconv
      · cases h2 : convertRecordFields pe m rest <;> rw [h2] at hconv
        · cases hconv
        · cases hconv
          exact ⟨_, by simp [List.lookup], rfl⟩
    · rename_i hn
      cases h1 : convert_hf_value pe (pyGetD m n) f <;> rw [h1] at hconv
      · cases hconv
      · cases h2 : convertRecordFields pe m rest <;> rw [h2] at hconv
        · cases hconv
        · cases hconv
          obtain ⟨v, hv1, hv2⟩ :=
            convertRecordFields_absent pe m name rest sf _ hlk hget h2
          refine ⟨v, ?_, hv2⟩
          have hne : (name == n) = false := by
            simp only [beq_eq_false_iff_ne, ne_eq]
            exact fun h => hn h.symm
          simp [List.lookup, hne, hv1]

theorem convert_dict_record_unfold (pe : String → Bool)
    (m : List (String × PyVal)) (fields : Fields) :
    convert_hf_value pe (.dict m) (.featuresDict fields) =
      match convertRecordFields pe m fields with
      | .error e => .error e
      | .ok l => .ok (.dict l) := by
  simp [convert_hf_value]

theorem convert_dict_columnar_unfold (pe : String → Bool)
    (m : List (String × PyVal)) (fields : Fields) :
    convert_hf_value pe (.dict m) (.sequence (.featuresDict fields)) =
      match convertColumns pe m fields with
      | .error e => .error e
      | .ok l => .ok (.dict l) := by
  simp [convert_hf_value]

/-- C1: converting a null foreign value against any schema node yields
exactly the synthesized default for that node, and at a record node a field
absent from the foreign map is treated as null and receives that field's
synthesized default in the output map. -/
theorem convert_null_is_default (pe : String → Bool) (s : FeatureConnector)
    (m : List (String × PyVal)) (fields : Fields) (name : String)
    (sf : FeatureConnector) (out : PyVal) :
    convert_hf_value pe PyVal.none s = _get_default_value s ∧
    (fieldsLookup fields name = some sf → pyGet m name = Option.none →
      convert_hf_value pe (.dict m) (.featuresDict fields) = .ok out →
      ∃ l v, out = .dict l ∧ l.lookup name = some v ∧
        _get_default_value sf = .ok v) := by
  refine ⟨convert_none_default pe s, ?_⟩
  intro h1 h2 h3
  rw [convert_dict_record_unfold] at h3
  cases hc : convertRecordFields pe m fields <;> rw [hc] at h3
  · cases h3
  · cases h3
    obtain ⟨v, hv1, hv2⟩ :=
      convertRecordFields_absent pe m name fields sf _ h1 h2 hc
    exact ⟨_, v, rfl, hv1, hv2⟩

/-- Witness for C1: a null against an integer scalar, and a record whose
field `b` is absent from the foreign map and comes back as the empty byte
string. -/
theorem convert_null_is_default_witness :
    convert_hf_value peNone PyVal.none (.scalar .int32) =
      _get_default_value (.scalar .int32) ∧
    (∃ l v, PyVal.dict [("a", .int 7), ("b", .bytes "")] = .dict l ∧
      l.lookup "b" = some v ∧ _get_default_value (.scalar .object_) = .ok v) :=
  ⟨(convert_null_is_default peNone (.scalar .int32) [] .nil "" (.scalar .int32)
      PyVal.none).1,
   (convert_null_is_default peNone (.scalar .int32) [("a", .int 7)]
      (.cons "a" (.scalar .int32) (.cons "b" (.scalar .object_) .nil)) "b"
      (.scalar .object_)
      (.dict [("a", .int 7), ("b", .bytes "")])).2 rfl rfl rfl⟩

/-! ### C10: record output carries exactly the schema fields, in order -/

theorem convertRecordFields_keys (pe : String → Bool)
    (m : List (String × PyVal)) :
    ∀ (fields : Fields) (l : List (String × PyVal)),
      convertRecordFields pe m fields = .ok l →
      l.map Prod.fst = fieldNames fields
  | .nil, l, h => by
    rw [convertRecordFields] at h
    cases h; rfl
  | .cons n f rest, l, h => by
    rw [convertRecordFields] at h
    cases h1 : convert_hf_value pe (pyGetD m n) f <;> rw [h1] at h
    · cases h
    · cases h2 : convertRecordFields pe m rest <;> rw [h2] at h
      · cases h
      · cases h
        simpa [fieldNames] using convertRecordFields_keys pe m rest _ h2

theorem convertColumns_keys (pe : String → Bool)
    (m : List (String × PyVal)) :
    ∀ (fields : Fields) (l : List (String × PyVal)),
      convertColumns pe m fields = .ok l →
      l.map Prod.fst = fieldNames fields
  | .nil, l, h => by
    rw [convertColumns] at h
    cases h; rfl
  | .cons n f rest, l, h => by
    rw [convertColumns] at h
    cases h1 : pyIterOpt (pyGet m n) <;> rw [h1] at h <;> dsimp only at h
    · cases h
    · rename_i elems
      cases h2 : exceptMapList (fun x => convert_hf_value pe x f) elems <;>
          rw [h2] at h <;> dsimp only at h
      · cases h
      · cases h3 : convertColumns pe m rest <;> rw [h3] at h <;> dsimp only at h
        · cases h
        · cases h
          simpa [fieldNames] using convertColumns_keys pe m rest _ h3

/-- C10: at a record node, and in the columnar sequence form, a successful
conversion returns a map whose keys are exactly the schema's field names in
schema order; foreign entries under other keys are dropped. -/
theorem record_output_exactly_schema_fields (pe : String → Bool)
    (m : List (String × PyVal)) (fields : Fields) (out : PyVal) :
    (convert_hf_value pe (.dict m) (.featuresDict fields) = .ok out →
      ∃ l, out = .dict l ∧ l.map Prod.fst = fieldNames fields) ∧
    (convert_hf_value pe (.dict m) (.sequence (.featuresDict fields)) = .ok out →
      ∃ l, out = .dict l ∧ l.map Prod.fst = fieldNames fields) := by
  constructor
  · intro h
    rw [convert_dict_record_unfold] at h
    cases hc : convertRecordFields pe m fields <;> rw [hc] at h
    · cases h
    · cases h
      exact ⟨_, rfl, convertRecordFields_keys pe m fields _ hc⟩
  · intro h
    rw [convert_dict_columnar_unfold] at h
    cases hc : convertColumns pe m fields <;> rw [hc] at h
    · cases h
    · cases h
      exact ⟨_, rfl, convertColumns_keys pe m fields _ hc⟩

/-- Witness for C10: the stray foreign key `zzz` is dropped in both the
record form and the columnar form. -/
theorem record_output_exactly_schema_fields_witness :
    (∃ l, PyVal.dict [("a", .int 1)] = PyVal.dict l ∧
      l.map Prod.fst = fieldNames (.cons "a" (.scalar .int64) .nil)) ∧
    (∃ l, PyVal.dict [("a", .list [.int 1, .int 2])] = PyVal.dict l ∧
      l.map Prod.fst = fieldNames (.cons "a" (.scalar .int64) .nil)) :=
  ⟨(record_output_exactly_schema_fields peNone
      [("a", .int 1), ("zzz", .bool true)] (.cons "a" (.scalar .int64) .nil)
      (.dict [("a", .int 1)])).1 rfl,
   (record_output_exactly_schema_fields peNone
      [("a", .list [.int 1, .int 2]), ("zzz", .bool true)]
      (.cons "a" (.scalar .int64) .nil)
      (.dict [("a", .list [.int 1, .int 2])])).2 rfl⟩

/-! ### C9: the columnar sequence form requires every column -/

theorem convertColumns_missing (pe : String → Bool)
    (m : List (String × PyVal)) (name : String) :
    ∀ (fields : Fields) (sf : FeatureConnector) (e0 : Err),
      fieldsLookup fields name = some sf →
      pyIterOpt (pyGet m name) = .error e0 →
      ∃ e, convertColumns pe m fields = .error e
  | .nil, sf, e0, hlk, _ => by simp [fieldsLookup] at hlk
  | .cons n f rest, sf, e0, hlk, hIt => by
    rw [convertColumns]
    rw [fieldsLookup] at hlk
    split at hlk
    · rename_i hn
      subst hn
      rw [hIt]
      exact ⟨e0, rfl⟩
    · rename_i hn
      cases h1 : pyIterOpt (pyGet m n) <;> dsimp only
      · exact ⟨_, rfl⟩
      · cases h2 : exceptMapList (fun x => convert_hf_value pe x f) _ <;>
          dsimp only
        · exact ⟨_, rfl⟩
        · obtain ⟨e, he⟩ :=
            convertColumns_missing pe m name rest sf e0 hlk hIt
          rw [he]
          exact ⟨e, rfl⟩

/-- C9: in the columnar sequence form every inner-schema field must be
present in the foreign map and bound to an iterable sequence; an absent
column makes the whole conversion fail (iterating Python `None` raises)
rather than being treated as null and defaulted, and so does a column bound
to a non-iterable value. -/
theorem columnar_missing_column_fails (pe : String → Bool)
    (m : List (String × PyVal)) (fields : Fields) (name : String)
    (sf : FeatureConnector) :
    pyIterOpt (Option.none : Option PyVal) =
      .error (.typeError "NoneType object is not iterable") ∧
    (fieldsLookup fields name = some sf → pyGet m name = Option.none →
      ∃ e, convert_hf_value pe (.dict m) (.sequence (.featuresDict fields)) =
        .error e) ∧
    (∀ v e0, fieldsLookup fields name = some sf → pyGet m name = some v →
      pyIter v = .error e0 →
      ∃ e, convert_hf_value pe (.dict m) (.sequence (.featuresDict fields)) =
        .error e) := by
  refine ⟨rfl, ?_, ?_⟩
  · intro h1 h2
    have hIt : pyIterOpt (pyGet m name) =
        .error (.typeError "NoneType object is not iterable") := by
      rw [h2]; rfl
    obtain ⟨e, he⟩ := convertColumns_missing pe m name fields sf _ h1 hIt
    rw [convert_dict_columnar_unfold, he]
    exact ⟨e, rfl⟩
  · intro v e0 h1 h2 h3
    have hIt : pyIterOpt (pyGet m name) = .error e0 := by
      rw [h2, pyIterOpt, h3]
    obtain ⟨e, he⟩ := convertColumns_missing pe m name fields sf _ h1 hIt
    rw [convert_dict_columnar_unfold, he]
    exact ⟨e, rfl⟩

/-- Witness for C9: an absent column and an integer-bound column both make
the columnar conversion fail. -/
theorem columnar_missing_column_fails_witness :
    (∃ e, convert_hf_value peNone (.dict [])
      (.sequence (.featuresDict (.cons "a" (.scalar .int64) .nil))) =
        .error e) ∧
    (∃ e, convert_hf_value peNone (.dict [("a", .int 3)])
      (.sequence (.featuresDict (.cons "a" (.scalar .int64) .nil))) =
        .error e) :=
  ⟨(columnar_missing_column_fails peNone [] (.cons "a" (.scalar .int64) .nil)
      "a" (.scalar .int64)).2.1 rfl rfl,
   (columnar_missing_column_fails peNone [("a", .int 3)]
      (.cons "a" (.scalar .int64) .nil) "a" (.scalar .int64)).2.2
      (.int 3) (.typeError "object is not iterable") rfl rfl rfl⟩

/-! ### C2: the three accepted sequence shapes -/

/-- C2 counterexample: the claim says a bare scalar is converted against the
inner schema before wrapping, i.e. `convert(5, seq-of-(seq-of-int))` would be
`[convert(5, seq-of-int)] = [[5]]`; the code returns `[5]`, the unconverted
scalar wrapped as-is. -/
theorem sequence_bare_scalar_counterexample :
    convert_hf_value peNone (.int 5) (.sequence (.sequence (.scalar .int64))) =
      .ok (.list [.int 5]) ∧
    (match convert_hf_value peNone (.int 5) (.sequence (.scalar .int64)) with
     | .ok v => Except.ok (PyVal.list [v])
     | .error e => Except.error e) = .ok (.list [.list [.int 5]]) ∧
    (Except.ok (PyVal.list [PyVal.int 5]) : Except Err PyVal) ≠
      Except.ok (PyVal.list [PyVal.list [PyVal.int 5]]) := by
  refine ⟨rfl, rfl, ?_⟩
  intro h
  cases h

/-- C2 amended: a sequence node accepts a map of parallel sequences
(converted column-wise), an ordered sequence (converted element-wise), and a
bare scalar, which is wrapped as a single-element sequence as-is, without
converting it against the inner schema. -/
theorem sequence_shapes_amended (pe : String → Bool)
    (inner : FeatureConnector) (v : PyVal) (xs : List PyVal) :
    (isBareSeqScalar v = true →
      convert_hf_value pe v (.sequence inner) = .ok (.list [v])) ∧
    (convert_hf_value pe (.list xs) (.sequence inner) =
      match exceptMapList (fun x => convert_hf_value pe x inner) xs with
      | .error e => .error e
      | .ok ys => .ok (.list ys)) ∧
    (convert_hf_value pe (.dict [("f", .list [.int 1, .int 2])])
        (.sequence (.featuresDict (.cons "f" (.scalar .int64) .nil))) =
      .ok (.dict [("f", .list [.int 1, .int 2])])) := by
  refine ⟨?_, ?_, rfl⟩
  · intro h
    cases v <;> simp [isBareSeqScalar] at h <;> rfl
  · simp [convert_hf_value]

/-- Witness for C2 (amended): the spec's own shape-tolerance example
`Value Converter(5, sequence-of-int) == [5]`. -/
theorem sequence_shapes_amended_witness :
    convert_hf_value peNone (.int 5) (.sequence (.scalar .int64)) =
      .ok (.list [.int 5]) :=
  (sequence_shapes_amended peNone (.scalar .int64) (.int 5) []).1 rfl

/-! ### C5: audio conversion -/

/-- C5 counterexample: a foreign audio value that carries an (empty)
in-memory sample array is not converted to the empty sample list as the
claim requires; the empty array is falsy, so the code falls through to the
missing-media error. -/
theorem audio_empty_array_counterexample :
    convert_hf_value peNone (.dict [("array", .list [])]) (.audio 16000) =
      .error (.valueError "Conversion of value to feature is not supported.") ∧
    convert_hf_value peNone (.dict [("array", .list [])]) (.audio 16000) ≠
      .ok (.list []) := by
  refine ⟨rfl, ?_⟩
  intro h
  rw [show convert_hf_value peNone (.dict [("array", .list [])]) (.audio 16000) =
    .error (.valueError "Conversion of value to feature is not supported.")
    from rfl] at h
  cases h

theorem exceptMapList_float_samples (rate : ℤ) : ∀ samples : List ℚ,
    exceptMapList (audioSampleConv rate) (samples.map PyVal.float) =
      .ok (samples.map (fun q => PyVal.int (pyIntTimes q rate)))
  | [] => rfl
  | q :: rest => by
    rw [List.map_cons, exceptMapList,
      show audioSampleConv rate (.float q) = .ok (.int (pyIntTimes q rate))
        from rfl,
      exceptMapList_float_samples rate rest]
    rfl

/-- C5 amended: for an audio leaf with sampling rate `R`, a non-empty
in-memory sample array converts by mapping each sample `x` to the integer
truncation of `x * R`; otherwise a truthy path string that exists is
returned as a path reference; a truthy path that does not exist, or neither
a truthy array nor a truthy path, fails with the missing-media error. -/
theorem audio_conversion_amended (pe : String → Bool)
    (m : List (String × PyVal)) (rate : ℤ) (samples : List ℚ) (p : String) :
    (pyGet m "array" = some (.list (samples.map PyVal.float)) →
      samples ≠ [] →
      convert_hf_value pe (.dict m) (.audio rate) =
        .ok (.list (samples.map
          (fun q => PyVal.int (pyTrunc (q * (rate : ℚ))))))) ∧
    (pyTruthyOpt (pyGet m "array") = false → pyGet m "path" = some (.str p) →
      p.isEmpty = false → pe p = true →
      convert_hf_value pe (.dict m) (.audio rate) = .ok (.path p)) ∧
    (pyTruthyOpt (pyGet m "array") = false → pyGet m "path" = some (.str p) →
      p.isEmpty = false → pe p = false →
      convert_hf_value pe (.dict m) (.audio rate) =
        .error (.valueError "Conversion of value to feature is not supported.")) ∧
    (pyTruthyOpt (pyGet m "array") = false →
      pyTruthyOpt (pyGet m "path") = false →
      convert_hf_value pe (.dict m) (.audio rate) =
        .error (.valueError "Conversion of value to feature is not supported.")) := by
  refine ⟨?_, ?_, ?_, ?_⟩
  · intro h1 h2
    have hmap : samples.map (fun q => PyVal.int (pyIntTimes q rate)) =
        samples.map (fun q => PyVal.int (pyTrunc (q * (rate : ℚ)))) := by
      simp only [pyIntTimes_eq]
    simp only [convert_hf_value, h1]
    have htr : pyTruthyOpt (some (PyVal.list (samples.map PyVal.float))) = true := by
      simp [pyTruthyOpt, pyTruthy, List.isEmpty_eq_true, h2]
    rw [htr]
    simp only [if_true]
    rw [show pyIterOpt (some (PyVal.list (samples.map PyVal.float))) =
      .ok (samples.map PyVal.float) from rfl]
    dsimp only
    rw [exceptMapList_float_samples rate samples]
    dsimp only
    rw [hmap]
  · intro h1 h2 h3 h4
    simp only [convert_hf_value, h1, h2]
    have htr : pyTruthyOpt (some (PyVal.str p)) = true := by
      simp [pyTruthyOpt, pyTruthy, h3]
    rw [htr]
    simp [h4]
  · intro h1 h2 h3 h4
    simp only [convert_hf_value, h1, h2]
    have htr : pyTruthyOpt (some (PyVal.str p)) = true := by
      simp [pyTruthyOpt, pyTruthy, h3]
    rw [htr]
    simp [h4]
  · intro h1 h2
    simp only [convert_hf_value, h1, h2]
    simp

/-- Witness for C5 (amended): a two-sample array, an existing path, and the
missing-media error. -/
theorem audio_conversion_amended_witness :
    convert_hf_value peNone
      (.dict [("array", .list [.float 2, .float (-3)])]) (.audio 16000) =
      .ok (.list ([(2 : ℚ), (-3 : ℚ)].map
        (fun q => PyVal.int (pyTrunc (q * ((16000 : ℤ) : ℚ)))))) ∧
    convert_hf_value (fun p => p = "a.wav")
      (.dict [("path", .str "a.wav")]) (.audio 16000) = .ok (.path "a.wav") ∧
    convert_hf_value peNone (.dict []) (.audio 16000) =
      .error (.valueError "Conversion of value to feature is not supported.") :=
  ⟨(audio_conversion_amended peNone [("array", .list [.float 2, .float (-3)])]
      16000 [2, -3] "").1 rfl (by simp),
   (audio_conversion_amended (fun p => p = "a.wav") [("path", .str "a.wav")]
      16000 [] "a.wav").2.1 rfl rfl rfl (by simp),
   (audio_conversion_amended peNone [] 16000 [] "").2.2.2 rfl rfl⟩

/-! ### C3: the empty-split filter -/

/-- C3: the empty-split filter drops exactly the splits whose stream yields
no record, emits exactly one warning naming each dropped split (in traversal
order), and passes every non-empty split through with exactly the same
records in the same order (the peeked first record is spliced back, so
nothing is duplicated, skipped or lost); in particular the spec's example
`{train: [], test: [x]}` keeps only `test` unchanged and warns once about
`train`. -/
theorem remove_empty_splits_spec :
    (∀ splits : List (String × List PyVal),
      (_remove_empty_splits splits).1 =
        splits.filter (fun p => !p.2.isEmpty) ∧
      (_remove_empty_splits splits).2 =
        (splits.filter (fun p => p.2.isEmpty)).map Prod.fst) ∧
    (∀ x : PyVal,
      _remove_empty_splits [("train", ([] : List PyVal)), ("test", [x])] =
        ([("test", [x])], ["train"])) := by
  constructor
  · intro splits
    induction splits with
    | nil => exact ⟨rfl, rfl⟩
    | cons sp rest ih =>
      obtain ⟨ih1, ih2⟩ := ih
      obtain ⟨s, ex⟩ := sp
      cases ex <;>
        simp [_remove_empty_splits, List.filter_cons, ih1, ih2]
  · intro x
    rfl

/-! ### C4: the parallel path equals the sequential enumeration -/

theorem lookup_tagged {α β : Type} (f : α → β) (xs : List α) :
    ∀ (l : List Nat), l.Nodup → ∀ (i : Nat) (y : α),
      i ∈ l → xs.get? i = some y →
      (l.filterMap (fun j => (xs.get? j).map (fun x => (j, f x)))).lookup i =
        some (f y)
  | [], _, i, y, hmem, _ => absurd hmem (List.not_mem_nil i)
  | j :: t, hnd, i, y, hmem, hget => by
    rw [List.filterMap_cons]
    have hnd' := (List.nodup_cons.1 hnd).2
    by_cases hij : i = j
    · subst hij
      rw [hget]
      simp [List.lookup]
    · have hmem' : i ∈ t := by
        cases List.mem_cons.1 hmem with
        | inl h => exact absurd h hij
        | inr h => exact h
      cases hj : xs.get? j with
      | none => exact lookup_tagged f xs t hnd' i y hmem' hget
      | some x =>
        have hne : (i == j) = false := by
          simp only [beq_eq_false_iff_ne, ne_eq]
          exact hij
        simp only [Option.map_some']
        rw [List.lookup, hne]
        exact lookup_tagged f xs t hnd' i y hmem' hget

theorem filterMap_range_map {α β : Type} (f : α → β) :
    ∀ (xs : List α) (h : Nat → Option β),
      (∀ i y, xs.get? i = some y → h i = some (f y)) →
      (List.range xs.length).filterMap h = xs.map f
  | [], h, _ => rfl
  | x :: t, h, H => by
    rw [List.length_cons, List.range_succ_eq_map, List.filterMap_cons]
    rw [H 0 x rfl]
    rw [List.filterMap_map]
    dsimp only
    rw [filterMap_range_map f t (h ∘ Nat.succ)
      (fun i y hy => H (i + 1) y (by simpa using hy))]
    rfl

theorem poolImap_perm {α β : Type} (f : α → β) (xs : List α)
    (order : List Nat) (hperm : order.Perm (List.range xs.length)) :
    poolImap f xs order = xs.map f := by
  rw [poolImap]
  apply filterMap_range_map
  intro i y hget
  have hlt : i < xs.length := by
    by_contra hge
    rw [List.get?_eq_none.2 (Nat.le_of_not_lt hge)] at hget
    cases hget
  have hnd : order.Nodup := hperm.nodup_iff.2 (List.nodup_range _)
  have hmem : i ∈ order := hperm.mem_iff.2 (List.mem_range.2 hlt)
  exact lookup_tagged f xs order hnd i y hmem hget

/-- C4: for any worker count (including the sequential default) and any
worker completion order, the split pipeline emits exactly the pairs
`(0, convert r0), …, (N-1, convert r(N-1))` in original stream order: the
parallel path is observationally equal to the sequential enumeration. -/
theorem generate_examples_order (pe : String → Bool)
    (features : FeatureConnector) (numProc : Option Nat) (order : List Nat)
    (data : List PyVal)
    (hperm : order.Perm (List.range data.length)) :
    _generate_examples pe features numProc order data =
      (data.map (fun hv => convert_hf_value pe hv features)).enum ∧
    (data.map (fun hv => convert_hf_value pe hv features)).enum =
      (List.range data.length).zip
        (data.map (fun hv => convert_hf_value pe hv features)) := by
  constructor
  · cases numProc with
    | none => rfl
    | some p =>
      rw [_generate_examples, poolImap_perm _ _ _ hperm]
  · rw [List.enum_eq_zip_range, List.length_map]

/-- Witness for C4: three records, two workers, completion order 2,0,1. -/
theorem generate_examples_order_witness :
    _generate_examples peNone (.scalar .int64) (some 2) [2, 0, 1]
      [.int 10, .int 20, .int 30] =
      ([PyVal.int 10, .int 20, .int 30].map
        (fun hv => convert_hf_value peNone hv (.scalar .int64))).enum :=
  (generate_examples_order peNone (.scalar .int64) (some 2) [2, 0, 1]
    [.int 10, .int 20, .int 30] (by decide)).1

/-! ### C8: the schema translator is a structural homomorphism -/

mutual
theorem extract_shape (nE tE : String → Option NpDtype) :
    ∀ (t : HfFeature) (f : FeatureConnector),
      extract_features nE tE t = .ok f → sameShape t f = true
  | .features hfs, f, h => by
    rw [extract_features] at h
    cases h1 : extract_features_fields nE tE hfs <;> rw [h1] at h
    · cases h
    · cases h
      rw [sameShape]
      exact extract_shape_fields nE tE hfs _ h1
  | .sequence hf, f, h => by
    rw [extract_features] at h
    cases h1 : extract_features nE tE hf <;> rw [h1] at h
    · cases h
    · cases h
      rw [sameShape]
      exact extract_shape nE tE hf _ h1
  | .listEnc .nil, f, h => by
    rw [extract_features] at h
    cases h
  | .listEnc (.cons x .nil), f, h => by
    rw [extract_features] at h
    cases h1 : extract_features nE tE x <;> rw [h1] at h
    · cases h
    · cases h
      rw [sameShape]
      exact extract_shape nE tE x _ h1
  | .listEnc (.cons x (.cons y rest)), f, h => by
    rw [extract_features] at h
    cases h
  | .value dtype, f, h => by
    rw [extract_features] at h
    cases h1 : convert_to_np_dtype nE tE dtype <;> rw [h1] at h
    · cases h
    · cases h
      rfl
  | .classLabel names namesFile numClasses, f, h => by
    rw [extract_features] at h
    split_ifs at h <;> cases h <;> rfl
  | .translation languages, f, h => by
    rw [extract_features] at h
    cases h
    rfl
  | .translationVariableLanguages languages, f, h => by
    rw [extract_features] at h
    cases h
    rfl
  | .image, f, h => by
    rw [extract_features] at h
    cases h
    rfl
  | .audio r, f, h => by
    rw [extract_features] at h
    cases h
    rfl

theorem extract_shape_fields (nE tE : String → Option NpDtype) :
    ∀ (hfs : HfFields) (fs : Fields),
      extract_features_fields nE tE hfs = .ok fs →
      sameShapeFields hfs fs = true
  | .nil, fs, h => by
    rw [extract_features_fields] at h
    cases h
    rfl
  | .cons n hf hrest, fs, h => by
    rw [extract_features_fields] at h
    cases h1 : extract_features nE tE hf <;> rw [h1] at h
    · cases h
    · cases h2 : extract_features_fields nE tE hrest <;> rw [h2] at h
      · cases h
      · cases h
        rw [sameShapeFields]
        simp [extract_shape nE tE hf _ h1, extract_shape_fields nE tE hrest _ h2]
end

/-- C8: a successful schema translation is a structural homomorphism — at
every record node the translated record has exactly the same field names in
the same order, children translated recursively; a single-element list
encoding is translated exactly like an explicit sequence wrapper, and a list
whose length is not 1 fails. -/
theorem extract_features_structural (nE tE : String → Option NpDtype)
    (t : HfFeature) (f : FeatureConnector) (x : HfFeature)
    (l : HfFeatureList) :
    (extract_features nE tE t = .ok f → sameShape t f = true) ∧
    (extract_features nE tE (.listEnc (.cons x .nil)) =
      extract_features nE tE (.sequence x)) ∧
    (hfListLength l ≠ 1 →
      extract_features nE tE (.listEnc l) =
        .error (.valueError "List should have a length of 1.")) := by
  refine ⟨extract_shape nE tE t f, ?_, ?_⟩
  · cases h : extract_features nE tE x <;> simp [extract_features, h]
  · intro hlen
    cases l with
    | nil => rfl
    | cons y rest =>
      cases rest with
      | nil => exact absurd rfl hlen
      | cons z rest2 => rfl

/-- Witness for C8: a concrete two-field record schema translates with the
same shape, and a two-element list encoding fails. -/
theorem extract_features_structural_witness :
    sameShape
      (.features (.cons "id" (.value "int32")
        (.cons "labels"
          (.sequence (.classLabel ["a", "b"] Option.none Option.none)) .nil)))
      (.featuresDict (.cons "id" (.scalar .int32)
        (.cons "labels" (.sequence (.classLabel (.names ["a", "b"]))) .nil))) =
      true ∧
    extract_features npEnvW tfEnvW (.listEnc (.cons .image (.cons .image .nil))) =
      .error (.valueError "List should have a length of 1.") :=
  ⟨(extract_features_structural npEnvW tfEnvW
      (.features (.cons "id" (.value "int32")
        (.cons "labels"
          (.sequence (.classLabel ["a", "b"] Option.none Option.none)) .nil)))
      (.featuresDict (.cons "id" (.scalar .int32)
        (.cons "labels" (.sequence (.classLabel (.names ["a", "b"]))) .nil)))
      .image .nil).1 rfl,
   (extract_features_structural npEnvW tfEnvW .image (.image "png") .image
      (.cons .image (.cons .image .nil))).2.2 (by decide)⟩

end HfTfds
